import Mathlib

/-!
Verification development for the pose-platformer repository ("shape_up").

The game's core helpers are shallowly embedded here: JavaScript numbers are
modelled as rationals (`ℚ`), `Math.round` as `jsRound` (floor of x + 1/2,
which is JavaScript's round-half-up semantics), mutable component state as
explicit state records, and fallible handlers as functions returning the
resulting state together with an explicit status.
-/

namespace ShapeUp

/-- A 2-D point or vector (`{x, y}` objects in the source). -/
structure Vec2 where
  x : ℚ
  y : ℚ
deriving DecidableEq, Repr

/-- JavaScript `Math.round`: round half up, i.e. `⌊x + 1/2⌋`. -/
def jsRound (q : ℚ) : ℤ := ⌊q + 1/2⌋

/-- `quant(n, step)` from `PoseGame.tsx`: `Math.round(n / step) * step`.
The source defaults `step` to 6; call sites below pass 6 explicitly. -/
def quant (n step : ℚ) : ℚ := (jsRound (n / step) : ℚ) * step

/-- The canonical ordered concatenation used in the last line of `segKey`:
`k1 < k2 ? k1 + "|" + k2 : k2 + "|" + k1`. -/
def orderedKey (k1 k2 : String) : String :=
  if k1 < k2 then k1 ++ "|" ++ k2 else k2 ++ "|" ++ k1

/-- `segKey(a, b)` from `PoseGame.tsx`: quantize both endpoints, stringify
each as `"x,y"`, and concatenate the two strings in lexicographic order. -/
def segKey (a b : Vec2) : String :=
  let ax := jsRound (a.x / 6) * 6
  let ay := jsRound (a.y / 6) * 6
  let bx := jsRound (b.x / 6) * 6
  let by' := jsRound (b.y / 6) * 6
  let k1 := toString ax ++ "," ++ toString ay
  let k2 := toString bx ++ "," ++ toString by'
  orderedKey k1 k2

theorem orderedKey_comm (k1 k2 : String) : orderedKey k1 k2 = orderedKey k2 k1 := by
  unfold orderedKey
  rcases lt_trichotomy k1 k2 with h | h | h
  · rw [if_pos h, if_neg (asymm h)]
  · rw [h]
  · rw [if_neg (asymm h), if_pos h]

/-- C6: the segment-deduplication key is symmetric in its endpoints:
for every pair of 2-D points `a` and `b`, `segKey a b = segKey b a`. -/
theorem C6_segKey_symmetric (a b : Vec2) : segKey a b = segKey b a := by
  unfold segKey
  exact orderedKey_comm _ _

/-- C7 counterexample: quantization is NOT stable under every perturbation
of up to half the step. `quant 0 6 = 0` but `quant 3 6 = 6`, even though
`|0 - 3| ≤ 3`. -/
theorem C7_counterexample :
    ¬ (∀ p p' : ℚ, |p - p'| ≤ 3 → quant p 6 = quant p' 6) := by
  intro h
  have h03 : quant 0 6 = quant 3 6 := h 0 3 (by norm_num)
  have h0 : quant 0 6 = 0 := by
    unfold quant jsRound
    norm_num
  have h3 : quant 3 6 = 6 := by
    unfold quant jsRound
    norm_num
  rw [h0, h3] at h03
  norm_num at h03

/-- C7 (amended): quantization is stable on the half-open window of radius
half the step around the quantization *center*: if `quant p 6 - 3 ≤ p'` and
`p' < quant p 6 + 3`, then `quant p' 6 = quant p 6`. -/
theorem C7_quant_stability (p p' : ℚ)
    (h1 : quant p 6 - 3 ≤ p') (h2 : p' < quant p 6 + 3) :
    quant p' 6 = quant p 6 := by
  unfold quant jsRound at *
  set k : ℤ := ⌊p / 6 + 1/2⌋ with hk
  have hfloor : ⌊p' / 6 + 1/2⌋ = k := by
    rw [Int.floor_eq_iff]
    constructor
    · have : (k : ℚ) * 6 - 3 ≤ p' := h1
      linarith
    · have : p' < (k : ℚ) * 6 + 3 := h2
      linarith
  rw [hfloor]

theorem C7_quant_stability_witness :
    (quant 1 6 - 3 ≤ 2 ∧ (2 : ℚ) < quant 1 6 + 3) ∧ quant 2 6 = quant 1 6 := by
  refine ⟨⟨?_, ?_⟩, C7_quant_stability 1 2 ?_ ?_⟩ <;>
    · unfold quant jsRound
      norm_num [Int.floor_eq_iff]

/-! ## Slope-stick (claim C4)

`applySlopeStick` from `PoseGame.tsx`: given the player's ground normal
(nullable), grounded flag and whether a movement key is held, cancel a
fraction (`kill`) of the velocity component along the slope tangent
`t = (-n.y, n.x)`.  `Matter.Body.setVelocity` is modelled by returning the
new velocity. -/

def applySlopeStick (groundNormal : Option Vec2) (isGrounded moving : Bool)
    (v : Vec2) : Vec2 :=
  match groundNormal, isGrounded with
  | some n, true =>
    let tx := -n.y
    let ty := n.x
    let vAlong := v.x * tx + v.y * ty
    let kill : ℚ := if moving then 65/100 else 1
    ⟨v.x - vAlong * tx * kill, v.y - vAlong * ty * kill⟩
  | _, _ => v

/-- The tangential (along-slope) component of a velocity `v` with respect to
ground normal `n`, using the source's tangent `(-n.y, n.x)`. -/
def tangComp (n v : Vec2) : ℚ := v.x * (-n.y) + v.y * n.x

theorem tangComp_applySlopeStick (n v : Vec2) (m : Bool)
    (hunit : n.x ^ 2 + n.y ^ 2 = 1) :
    tangComp n (applySlopeStick (some n) true m v) =
      (if m then 35/100 else 0) * tangComp n v := by
  cases m
  · simp only [applySlopeStick, tangComp, Bool.false_eq_true, reduceIte]
    linear_combination (-(v.x * -n.y + v.y * n.x)) * hunit
  · simp only [applySlopeStick, tangComp, reduceIte]
    linear_combination (-(65/100 : ℚ) * (v.x * -n.y + v.y * n.x)) * hunit

/-- C4: for a grounded player with a unit ground normal, the slope-stick step
cancels the tangential velocity component fully when no movement key is held
(post-step tangential component is exactly 0, hence at most 1% of the
pre-step magnitude), and leaves at most 35% of it when a movement key is
held. -/
theorem C4_slope_stick_cancellation (n v : Vec2)
    (hunit : n.x ^ 2 + n.y ^ 2 = 1) :
    tangComp n (applySlopeStick (some n) true false v) = 0 ∧
    |tangComp n (applySlopeStick (some n) true false v)| ≤
      1/100 * |tangComp n v| ∧
    |tangComp n (applySlopeStick (some n) true true v)| ≤
      35/100 * |tangComp n v| := by
  have h0 := tangComp_applySlopeStick n v false hunit
  have h1 := tangComp_applySlopeStick n v true hunit
  simp only [Bool.false_eq_true, reduceIte, zero_mul] at h0 h1
  refine ⟨h0, ?_, ?_⟩
  · rw [h0, abs_zero]
    positivity
  · rw [h1, abs_mul]
    have habs : |(35/100 : ℚ)| = 35/100 := by norm_num
    rw [habs]

theorem C4_slope_stick_cancellation_witness :
    ((⟨0, -1⟩ : Vec2).x ^ 2 + (⟨0, -1⟩ : Vec2).y ^ 2 = 1) ∧
    tangComp ⟨0, -1⟩ (applySlopeStick (some ⟨0, -1⟩) true false ⟨3, 0⟩) = 0 := by
  refine ⟨by norm_num, ?_⟩
  exact (C4_slope_stick_cancellation ⟨0, -1⟩ ⟨3, 0⟩ (by norm_num)).1

/-! ## Win edge-trigger (claim C2)

The win-condition effect (both in `PoseGame.tsx`, guarded by
`phase === "game"`, and in the editor, guarded by `attemptStarted`):
after every flag-state update, if the flag list is non-empty, every flag is
raised and `gameWon` is still false, set `gameWon` and emit the win signal
(`onWin` / level-cleared log).  A flag configuration is modelled by the list
of the flags' `raised` booleans. -/

def winCheck (attemptActive : Bool) (flags : List Bool) (gameWon : Bool) :
    Bool × Bool :=
  if attemptActive && decide (0 < flags.length) then
    let allRaised := flags.all (fun r => r)
    if allRaised && !gameWon then (true, true) else (false, gameWon)
  else (false, gameWon)

/-- Run the win-condition effect over a sequence of flag-state updates within
one attempt (attempt active throughout); returns, per update, whether the win
signal was emitted at that update. -/
def winEmits (gameWon : Bool) : List (List Bool) → List Bool
  | [] => []
  | fs :: rest =>
    let r := winCheck true fs gameWon
    r.1 :: winEmits r.2 rest

/-- The win condition on one flag configuration: non-empty and all raised. -/
def winCond (flags : List Bool) : Bool :=
  decide (0 < flags.length) && flags.all (fun r => r)

/-- Modelled from the spec: the intended emission pattern — a single `true`
at the first update whose configuration satisfies the win condition, `false`
everywhere else. -/
def firstTrueOnly : List Bool → List Bool
  | [] => []
  | b :: rest =>
    if b then true :: rest.map (fun _ => false)
    else false :: firstTrueOnly rest

theorem winEmits_of_won (us : List (List Bool)) :
    winEmits true us = us.map (fun _ => false) := by
  induction us with
  | nil => rfl
  | cons u rest ih =>
    simp only [winEmits, winCheck, Bool.and_eq_true, Bool.not_true,
      Bool.and_false, if_false, List.map]
    split <;> simp [ih]

theorem count_true_firstTrueOnly (bs : List Bool) :
    (firstTrueOnly bs).count true ≤ 1 := by
  induction bs with
  | nil => simp [firstTrueOnly]
  | cons b rest ih =>
    cases b
    · simp only [firstTrueOnly, Bool.false_eq_true, reduceIte]
      simpa [List.count_cons] using ih
    · simp only [firstTrueOnly, reduceIte]
      simp [List.count_cons, List.count_replicate]

/-- C2: the win signal is edge-triggered.  Starting an attempt with
`gameWon = false`, the sequence of emissions over any sequence of flag-state
updates is exactly `firstTrueOnly` of the per-update win condition — the
signal fires exactly at the first update where the flag set is non-empty and
all raised, and never again — and in particular it fires at most once. -/
theorem C2_win_edge_trigger (us : List (List Bool)) :
    winEmits false us = firstTrueOnly (us.map winCond) ∧
    (winEmits false us).count true ≤ 1 := by
  have hmain : ∀ vs : List (List Bool),
      winEmits false vs = firstTrueOnly (vs.map winCond) := by
    intro vs
    induction vs with
    | nil => rfl
    | cons u rest ih =>
      by_cases hc : winCond u = true
      · have hc' := hc
        unfold winCond at hc'
        rw [Bool.and_eq_true] at hc'
        obtain ⟨hlen, hall⟩ := hc'
        simp only [winEmits, winCheck, hlen, Bool.and_true, Bool.true_and,
          hall, Bool.not_false, if_true, List.map, firstTrueOnly, hc]
        simp [winEmits_of_won]
      · simp only [Bool.not_eq_true] at hc
        have hsplit : winCheck true u false = (false, false) := by
          unfold winCheck
          unfold winCond at hc
          rcases hde : decide (0 < u.length) with _ | _
          · simp [hde]
          · rcases hal : u.all (fun r => r) with _ | _
            · simp [hde, hal]
            · rw [hde, hal] at hc
              simp at hc
        simp only [winEmits, hsplit, List.map, firstTrueOnly, hc,
          Bool.false_eq_true, if_false]
        exact congrArg (List.cons false) ih
  refine ⟨hmain us, ?_⟩
  rw [hmain us]
  exact count_true_firstTrueOnly _

/-! ## Flag raise monotonicity (claim C3)

The `collisionStart` handler in `PoseGame.tsx`.  Physics bodies are
identified by `Nat` ids; a collision event delivers a list of body pairs.
For each pair involving a player body, each flag whose `playerType` matches
and whose body is the other body of the pair, and which is not yet raised,
has `raised` set to `true`.  (Sound effects, the reactive `flagStates`
mirror and the grounded-normal bookkeeping are side channels that never
write `raised` and are omitted.) -/

structure FlagData where
  flagBody : Nat
  raised : Bool
  playerType : Nat
deriving DecidableEq, Repr

def raiseFlagsFor (pt : Nat) (otherBody : Nat) (flags : List FlagData) :
    List FlagData :=
  flags.map fun f =>
    if f.playerType = pt ∧ f.flagBody = otherBody ∧ f.raised = false then
      { f with raised := true }
    else f

/-- The per-player block of the pair handler: if the pair involves this
player's body, raise this player's matching flags against the other body. -/
def playerFlagPass (pt playerBody : Nat) (flags : List FlagData)
    (pr : Nat × Nat) : List FlagData :=
  if pr.1 = playerBody ∨ pr.2 = playerBody then
    raiseFlagsFor pt (if pr.1 = playerBody then pr.2 else pr.1) flags
  else flags

/-- One collision pair: the player-1 block runs first, then the player-2
block sees its in-place updates. -/
def processPair (p1Body p2Body : Nat) (flags : List FlagData)
    (pr : Nat × Nat) : List FlagData :=
  playerFlagPass 2 p2Body (playerFlagPass 1 p1Body flags pr) pr

/-- One `collisionStart` event: `event.pairs.forEach(...)`. -/
def collisionStartEvent (p1Body p2Body : Nat) (flags : List FlagData)
    (pairs : List (Nat × Nat)) : List FlagData :=
  pairs.foldl (processPair p1Body p2Body) flags

/-- A sequence of collision events within one attempt. -/
def processEvents (p1Body p2Body : Nat) (flags : List FlagData)
    (events : List (List (Nat × Nat))) : List FlagData :=
  events.foldl (collisionStartEvent p1Body p2Body) flags

/-- `raised` never goes back from `true`, index by index. -/
def raisedMono (fs fs' : List FlagData) : Prop :=
  ∀ i : Nat, (fs.get? i).map FlagData.raised = some true →
    (fs'.get? i).map FlagData.raised = some true

theorem raisedMono_refl (fs : List FlagData) : raisedMono fs fs := fun _ h => h

theorem raisedMono_trans {fs gs hs : List FlagData}
    (h1 : raisedMono fs gs) (h2 : raisedMono gs hs) : raisedMono fs hs :=
  fun i h => h2 i (h1 i h)

theorem raisedMono_map (g : FlagData → FlagData)
    (hg : ∀ f, f.raised = true → (g f).raised = true) (fs : List FlagData) :
    raisedMono fs (fs.map g) := by
  intro i h
  cases hf : fs.get? i with
  | none => rw [hf] at h; simp at h
  | some f =>
    rw [hf] at h
    have hr : f.raised = true := by simpa using h
    have hgm : (fs.map g).get? i = some (g f) := by
      rw [List.get?_eq_getElem?] at hf ⊢
      rw [List.getElem?_map, hf]
      rfl
    rw [hgm]
    simpa using hg f hr

theorem raisedMono_raiseFlagsFor (pt ob : Nat) (fs : List FlagData) :
    raisedMono fs (raiseFlagsFor pt ob fs) := by
  unfold raiseFlagsFor
  apply raisedMono_map
  intro f hf
  dsimp only
  split
  · rfl
  · exact hf

theorem raisedMono_playerFlagPass (pt pb : Nat) (fs : List FlagData)
    (pr : Nat × Nat) : raisedMono fs (playerFlagPass pt pb fs pr) := by
  unfold playerFlagPass
  split
  · exact raisedMono_raiseFlagsFor _ _ _
  · exact raisedMono_refl _

theorem raisedMono_processPair (p1 p2 : Nat) (fs : List FlagData)
    (pr : Nat × Nat) : raisedMono fs (processPair p1 p2 fs pr) :=
  raisedMono_trans (raisedMono_playerFlagPass 1 p1 fs pr)
    (raisedMono_playerFlagPass 2 p2 _ pr)

theorem raisedMono_foldl {α : Type} (step : List FlagData → α → List FlagData)
    (hstep : ∀ fs a, raisedMono fs (step fs a)) :
    ∀ (xs : List α) (fs : List FlagData), raisedMono fs (xs.foldl step fs) := by
  intro xs
  induction xs with
  | nil => intro fs; exact raisedMono_refl fs
  | cons x rest ih =>
    intro fs
    exact raisedMono_trans (hstep fs x) (ih (step fs x))

/-- C3: a flag's `raised` field is monotonic within one attempt — if the
flag at index `i` is raised, then after processing any further sequence of
collision events it is still raised. -/
theorem C3_monotonic_raise (p1Body p2Body : Nat)
    (events : List (List (Nat × Nat))) (flags : List FlagData) (i : Nat)
    (h : (flags.get? i).map FlagData.raised = some true) :
    ((processEvents p1Body p2Body flags events).get? i).map FlagData.raised =
      some true := by
  refine raisedMono_foldl _ ?_ events flags i h
  intro fs pairs
  exact raisedMono_foldl _ (fun gs pr => raisedMono_processPair p1Body p2Body gs pr)
    pairs fs

theorem C3_monotonic_raise_witness :
    (([⟨7, true, 1⟩] : List FlagData).get? 0).map FlagData.raised = some true ∧
    ((processEvents 100 200 [⟨7, true, 1⟩] [[(100, 7)], [(200, 7)]]).get? 0).map
      FlagData.raised = some true :=
  ⟨by decide, C3_monotonic_raise 100 200 [[(100, 7)], [(200, 7)]]
    [⟨7, true, 1⟩] 0 (by decide)⟩

/-! ## Idle position lock (claim C5)

The keyboard state (`keysRef`), one player's physics/controller state, the
player-1 block of `gameLoop`, and `handleKeyDown`.  `Matter.Body.setPosition`
/ `setVelocity` / `setAngularVelocity` are modelled as field updates;
`Matter.Body.applyForce` as accumulation into `appliedForce`. -/

structure Keys where
  a : Bool
  d : Bool
  w : Bool
  left : Bool
  right : Bool
  up : Bool
deriving DecidableEq, Repr

structure PlayerState where
  pos : Vec2
  vel : Vec2
  angVel : ℚ
  grounded : Bool
  groundNormal : Option Vec2
  lockedPos : Option Vec2
  appliedForce : Vec2
deriving DecidableEq, Repr

/-- The movement branch of the player-1 block: explicit left/right velocity
assignment; else, when grounded with no keys held, snapshot-and-lock the
position and zero the velocities; else air damping (×0.9 on x). -/
def p1MoveBranch (keys : Keys) (s : PlayerState) : PlayerState :=
  if keys.a then { s with vel := ⟨-5, s.vel.y⟩ }
  else if keys.d then { s with vel := ⟨5, s.vel.y⟩ }
  else if s.grounded && (!keys.a && !keys.d && !keys.w) then
    let lock := s.lockedPos.getD s.pos
    { s with lockedPos := some lock, pos := lock, vel := ⟨0, 0⟩, angVel := 0 }
  else { s with vel := ⟨s.vel.x * (9/10), s.vel.y⟩ }

/-- Fall-speed cap: clamp `vel.y` to `maxFallSpeed = 15`. -/
def p1FallCap (s : PlayerState) : PlayerState :=
  if s.vel.y > 15 then { s with vel := ⟨s.vel.x, 15⟩ } else s

/-- Jump: if `w` held and grounded, apply the upward impulse and consume the
key (`keysRef.current.w = false`). -/
def p1Jump (keys : Keys) (s : PlayerState) : Keys × PlayerState :=
  if keys.w && s.grounded then
    ({ keys with w := false },
     { s with appliedForce := ⟨s.appliedForce.x, s.appliedForce.y + (-4/100)⟩ })
  else (keys, s)

/-- The player-1 part of one `gameLoop` tick: slope-stick, movement branch,
fall cap, jump. -/
def player1Tick (keys : Keys) (s : PlayerState) : Keys × PlayerState :=
  let moving := keys.a || keys.d
  let s1 := { s with vel := applySlopeStick s.groundNormal s.grounded moving s.vel }
  let s2 := p1MoveBranch keys s1
  let s3 := p1FallCap s2
  p1Jump keys s3

/-- Key identities as dispatched by `handleKeyDown` / `handleKeyUp`. -/
inductive GameKey
  | keyA
  | keyD
  | keyW
  | arrowLeft
  | arrowRight
  | arrowUp
deriving DecidableEq, Repr

/-- The locked-position caches of the two players
(`player1LockedPositionRef`, `player2LockedPositionRef`). -/
structure LockCaches where
  p1Lock : Option Vec2
  p2Lock : Option Vec2
deriving DecidableEq, Repr

/-- `handleKeyDown`: set the key's held-state and invalidate the owning
player's locked-position cache. -/
def handleKeyDown (k : GameKey) (keys : Keys) (locks : LockCaches) :
    Keys × LockCaches :=
  match k with
  | .keyA => ({ keys with a := true }, { locks with p1Lock := none })
  | .keyD => ({ keys with d := true }, { locks with p1Lock := none })
  | .keyW => ({ keys with w := true }, { locks with p1Lock := none })
  | .arrowLeft => ({ keys with left := true }, { locks with p2Lock := none })
  | .arrowRight => ({ keys with right := true }, { locks with p2Lock := none })
  | .arrowUp => ({ keys with up := true }, { locks with p2Lock := none })

/-- C5: idle position lock.  (1) On a grounded tick with none of the
player's movement/jump keys held: if the locked-position cache is empty, the
tick fills it with the current position and the post-tick position is that
same point with zero linear and angular velocity; if the cache already holds
a point `p`, the tick forces the position back to exactly `p`, keeps the
cache at `p`, and zeroes both velocities.  (2) `handleKeyDown` on any of the
player's movement/jump keys clears the cache immediately. -/
theorem C5_idle_position_lock :
    (∀ (keys : Keys) (s : PlayerState),
      keys.a = false → keys.d = false → keys.w = false → s.grounded = true →
        ((s.lockedPos = none →
            ((player1Tick keys s).2.lockedPos = some s.pos ∧
             (player1Tick keys s).2.pos = s.pos ∧
             (player1Tick keys s).2.vel = ⟨0, 0⟩ ∧
             (player1Tick keys s).2.angVel = 0)) ∧
         (∀ p : Vec2, s.lockedPos = some p →
            ((player1Tick keys s).2.pos = p ∧
             (player1Tick keys s).2.lockedPos = some p ∧
             (player1Tick keys s).2.vel = ⟨0, 0⟩ ∧
             (player1Tick keys s).2.angVel = 0)))) ∧
    (∀ (k : GameKey) (keys : Keys) (locks : LockCaches),
      k = .keyA ∨ k = .keyD ∨ k = .keyW →
        (handleKeyDown k keys locks).2.p1Lock = none) := by
  constructor
  · intro keys s ha hd hw hg
    constructor
    · intro hlock
      simp [player1Tick, p1MoveBranch, p1FallCap, p1Jump, ha, hd, hw, hg, hlock]
      norm_num
    · intro p hlock
      simp [player1Tick, p1MoveBranch, p1FallCap, p1Jump, ha, hd, hw, hg, hlock]
      norm_num
  · intro k keys locks hk
    rcases hk with h | h | h <;> subst h <;> rfl

theorem C5_idle_position_lock_witness :
    ((⟨false, false, false, false, false, false⟩ : Keys).a = false ∧
     (⟨⟨7, 8⟩, ⟨1, 2⟩, 3, true, none, none, ⟨0, 0⟩⟩ : PlayerState).grounded
       = true) ∧
    (player1Tick ⟨false, false, false, false, false, false⟩
        ⟨⟨7, 8⟩, ⟨1, 2⟩, 3, true, none, none, ⟨0, 0⟩⟩).2.lockedPos
      = some ⟨7, 8⟩ ∧
    (handleKeyDown .keyA ⟨false, false, false, false, false, false⟩
        ⟨some ⟨7, 8⟩, none⟩).2.p1Lock = none := by
  have h := C5_idle_position_lock
  refine ⟨⟨rfl, rfl⟩, ?_, ?_⟩
  · exact ((h.1 ⟨false, false, false, false, false, false⟩
      ⟨⟨7, 8⟩, ⟨1, 2⟩, 3, true, none, none, ⟨0, 0⟩⟩ rfl rfl rfl rfl).1 rfl).1
  · exact h.2 .keyA ⟨false, false, false, false, false, false⟩
      ⟨some ⟨7, 8⟩, none⟩ (Or.inl rfl)

/-! ## Level data model and the authoring tool (claims C1, C9, C10)

`SavedLevel` and the editor state from the level-creator component.
`end` is a Lean keyword, so the `end` field of segments is named `endp`. -/

inductive PlatformType
  | temporary
  | permanent
  | ground
deriving DecidableEq, Repr

structure SavedPlatform where
  start : Vec2
  endp : Vec2
  thickness : ℚ
  type : PlatformType
deriving DecidableEq, Repr

structure SavedFlag where
  playerType : Nat
  flagPos : Vec2
  raised : Bool
deriving DecidableEq, Repr

structure SavedLevel where
  platforms : List SavedPlatform
  flags : List SavedFlag
  player1Spawn : Option Vec2
  player2Spawn : Option Vec2
deriving DecidableEq, Repr

structure PlatformMeta where
  start : Vec2
  endp : Vec2
  thickness : ℚ
deriving DecidableEq, Repr

/-- An editor platform entry (`platformsRef`): physics body omitted, type
tag and endpoint metadata kept. -/
structure EPlatform where
  type : PlatformType
  meta : PlatformMeta
deriving DecidableEq, Repr

/-- An editor flag entry (`flagsRef`): body position, raised, player type. -/
structure EFlag where
  flagPos : Vec2
  raised : Bool
  playerType : Nat
deriving DecidableEq, Repr

/-- The level-creator component state touched by save/load: the platform
and flag lists, the reactive flag-state map (modelled as its entry list),
the spawn refs, and whether each spawn marker body is in the world. -/
structure EditorState where
  engineReady : Bool
  platforms : List EPlatform
  flags : List EFlag
  flagStates : List (Nat × Bool)
  p1Spawn : Option Vec2
  p2Spawn : Option Vec2
  p1Marker : Bool
  p2Marker : Bool
deriving DecidableEq, Repr

/-- What `JSON.parse` produced for a level file.  A JavaScript `SavedLevel`
read from disk may lack the `platforms` / `flags` arrays (the TypeScript
cast performs no validation); a missing array is `none`, and iterating it
with `.forEach` throws. -/
structure LevelJson where
  platforms : Option (List SavedPlatform)
  flags : Option (List SavedFlag)
  player1Spawn : Option Vec2
  player2Spawn : Option Vec2
deriving DecidableEq, Repr

inductive LoadStatus
  | ok
  | noEngine
  | threw
deriving DecidableEq, Repr

/-- `loadLevelHandler`: clears platforms, flags, the flag-state map and the
spawn markers, then loads the file's platforms, flags and spawns.  Reading a
missing array throws a `TypeError` at that point, modelled by returning
`LoadStatus.threw` together with the state as already mutated. -/
def loadLevelHandler (s : EditorState) (levelData : LevelJson) :
    EditorState × LoadStatus :=
  if s.engineReady = false then (s, LoadStatus.noEngine)
  else
    let s1 : EditorState :=
      { s with platforms := [], flags := [], flagStates := [],
               p1Marker := false, p2Marker := false }
    match levelData.platforms with
    | none => (s1, LoadStatus.threw)
    | some ps =>
      let s2 : EditorState :=
        { s1 with platforms :=
            ps.map fun p => ⟨p.type, ⟨p.start, p.endp, p.thickness⟩⟩ }
      match levelData.flags with
      | none => (s2, LoadStatus.threw)
      | some fs =>
        let s3 : EditorState :=
          { s2 with flags := fs.map fun f => ⟨f.flagPos, false, f.playerType⟩ }
        ({ s3 with p1Spawn := levelData.player1Spawn,
                   p2Spawn := levelData.player2Spawn,
                   p1Marker := levelData.player1Spawn.isSome,
                   p2Marker := levelData.player2Spawn.isSome },
         LoadStatus.ok)

/-- `handleFileSelect`'s reader callback: `JSON.parse` then
`loadLevelHandler`, in a try/catch that alerts on any exception.
`raw = none` models input that is not valid JSON (`JSON.parse` throws before
the handler runs).  Returns the resulting state and whether the error alert
was shown. -/
def handleFileSelect (s : EditorState) (raw : Option LevelJson) :
    EditorState × Bool :=
  match raw with
  | none => (s, true)
  | some levelData =>
    match loadLevelHandler s levelData with
    | (s', LoadStatus.threw) => (s', true)
    | (s', _) => (s', false)

/-- An editor state with one previously loaded permanent platform, a flag
and a player-1 spawn. -/
def exEditorState : EditorState :=
  { engineReady := true
    platforms := [⟨PlatformType.permanent, ⟨⟨0, 100⟩, ⟨50, 100⟩, 10⟩⟩]
    flags := [⟨⟨25, 90⟩, false, 1⟩]
    flagStates := [(0, false)]
    p1Spawn := some ⟨10, 50⟩
    p2Spawn := none
    p1Marker := true
    p2Marker := false }

/-- A file that is valid JSON but not a well-formed level: both arrays
missing (e.g. the file `{}`). -/
def exBadLevelJson : LevelJson := ⟨none, none, none, none⟩

/-- C1 counterexample: loading is not all-or-nothing.  Feeding the editor
the parseable-but-malformed file `{}` reports the error (the alert fires),
yet the previously loaded level state is already cleared, not intact. -/
theorem C1_counterexample :
    (handleFileSelect exEditorState (some exBadLevelJson)).2 = true ∧
    (handleFileSelect exEditorState (some exBadLevelJson)).1 ≠ exEditorState ∧
    (handleFileSelect exEditorState (some exBadLevelJson)).1.platforms = [] := by
  refine ⟨rfl, ?_, rfl⟩
  intro h
  have hp : ([] : List EPlatform) = exEditorState.platforms :=
    congrArg EditorState.platforms h
  simp [exEditorState] at hp

/-- C1 (amended): the all-or-nothing guarantee holds exactly for inputs that
fail JSON parsing — the error is reported synchronously and the state is
untouched; for input that parses but lacks the platforms array, the error is
still reported synchronously, but the handler has already cleared the
previous level state (platforms, flags, flag states, spawn markers). -/
theorem C1_load_error_behaviour :
    (∀ s : EditorState,
      (handleFileSelect s none).1 = s ∧ (handleFileSelect s none).2 = true) ∧
    (∀ (s : EditorState) (ld : LevelJson),
      s.engineReady = true → ld.platforms = none →
        (handleFileSelect s (some ld)).2 = true ∧
        (handleFileSelect s (some ld)).1.platforms = []) := by
  constructor
  · intro s
    exact ⟨rfl, rfl⟩
  · intro s ld hr hp
    simp [handleFileSelect, loadLevelHandler, hr, hp]

theorem C1_load_error_behaviour_witness :
    (exEditorState.engineReady = true ∧ exBadLevelJson.platforms = none) ∧
    (handleFileSelect exEditorState (some exBadLevelJson)).2 = true ∧
    (handleFileSelect exEditorState (some exBadLevelJson)).1.platforms = [] :=
  ⟨⟨rfl, rfl⟩, C1_load_error_behaviour.2 exEditorState exBadLevelJson rfl rfl⟩

/-- `r2` from the level creator: round to two decimals,
`Math.round(n * 100) / 100`. -/
def r2 (n : ℚ) : ℚ := (jsRound (n * 100) : ℚ) / 100

/-- `buildLevel`: export the editor state as a `SavedLevel`, dropping
temporary platforms and rounding all coordinates to two decimals; exported
flags are always lowered. -/
def buildLevel (s : EditorState) : SavedLevel :=
  { platforms :=
      (s.platforms.filter fun p => p.type ≠ PlatformType.temporary).map
        fun p =>
          ⟨⟨r2 p.meta.start.x, r2 p.meta.start.y⟩,
           ⟨r2 p.meta.endp.x, r2 p.meta.endp.y⟩,
           p.meta.thickness, p.type⟩
    flags :=
      s.flags.map fun f => ⟨f.playerType, ⟨r2 f.flagPos.x, r2 f.flagPos.y⟩, false⟩
    player1Spawn := s.p1Spawn.map fun q => ⟨r2 q.x, r2 q.y⟩
    player2Spawn := s.p2Spawn.map fun q => ⟨r2 q.x, r2 q.y⟩ }

/-- C9: a `SavedLevel` export never contains a temporary platform — every
platform in `(buildLevel s).platforms` has type `permanent` or `ground`. -/
theorem C9_no_temporary_in_export (s : EditorState) (p : SavedPlatform)
    (hp : p ∈ (buildLevel s).platforms) :
    (p.type = PlatformType.permanent ∨ p.type = PlatformType.ground) ∧
    p.type ≠ PlatformType.temporary := by
  unfold buildLevel at hp
  simp only [List.mem_map, List.mem_filter] at hp
  obtain ⟨q, ⟨_, hq⟩, hpq⟩ := hp
  have htype : p.type = q.type := by rw [← hpq]
  rw [decide_eq_true_eq] at hq
  rw [htype]
  cases h : q.type
  · exact absurd h hq
  · exact ⟨Or.inl rfl, by simp⟩
  · exact ⟨Or.inr rfl, by simp⟩

theorem C9_export_mem :
    (⟨⟨0, 100⟩, ⟨50, 100⟩, 10, PlatformType.permanent⟩ : SavedPlatform) ∈
      (buildLevel exEditorState).platforms := by
  have h0 : r2 0 = 0 := by
    unfold r2 jsRound
    norm_num
  have h50 : r2 50 = 50 := by
    unfold r2 jsRound
    norm_num [Int.floor_eq_iff]
  have h100 : r2 100 = 100 := by
    unfold r2 jsRound
    norm_num [Int.floor_eq_iff]
  simp [buildLevel, exEditorState, h0, h50, h100]

theorem C9_no_temporary_in_export_witness :
    (⟨⟨0, 100⟩, ⟨50, 100⟩, 10, PlatformType.permanent⟩ : SavedPlatform) ∈
      (buildLevel exEditorState).platforms ∧
    ((⟨⟨0, 100⟩, ⟨50, 100⟩, 10, PlatformType.permanent⟩ : SavedPlatform).type =
        PlatformType.permanent ∨
      (⟨⟨0, 100⟩, ⟨50, 100⟩, 10, PlatformType.permanent⟩ : SavedPlatform).type =
        PlatformType.ground) :=
  ⟨C9_export_mem,
   (C9_no_temporary_in_export exEditorState _ C9_export_mem).1⟩

/-- The spawn-point selection at game-phase entry in `PoseGame.tsx`:
`loadLevel.player1Spawn || {x: width * 0.125, y: height * 0.5}`. -/
def player1SpawnPoint (level : SavedLevel) (width height : ℚ) : Vec2 :=
  level.player1Spawn.getD ⟨width * (125/1000), height * (5/10)⟩

/-- `loadLevel.player2Spawn || {x: width * 0.875, y: height * 0.5}`. -/
def player2SpawnPoint (level : SavedLevel) (width height : ℚ) : Vec2 :=
  level.player2Spawn.getD ⟨width * (875/1000), height * (5/10)⟩

/-- C10: default spawn positions.  If the level omits `player1Spawn`,
player 1 spawns at `(0.125 · width, 0.5 · height)`; if it omits
`player2Spawn`, player 2 spawns at `(0.875 · width, 0.5 · height)`;
a present spawn point is used unchanged. -/
theorem C10_default_spawns (level : SavedLevel) (width height : ℚ) :
    (level.player1Spawn = none →
      player1SpawnPoint level width height =
        ⟨width * (125/1000), height * (5/10)⟩) ∧
    (∀ p, level.player1Spawn = some p →
      player1SpawnPoint level width height = p) ∧
    (level.player2Spawn = none →
      player2SpawnPoint level width height =
        ⟨width * (875/1000), height * (5/10)⟩) ∧
    (∀ p, level.player2Spawn = some p →
      player2SpawnPoint level width height = p) := by
  refine ⟨fun h => ?_, fun p h => ?_, fun h => ?_, fun p h => ?_⟩ <;>
    simp [player1SpawnPoint, player2SpawnPoint, h]

/-- A level with no player-1 spawn and an explicit player-2 spawn. -/
def exLevelNoSpawn1 : SavedLevel := ⟨[], [], none, some ⟨11, 22⟩⟩

theorem C10_default_spawns_witness :
    (exLevelNoSpawn1.player1Spawn = none ∧
     exLevelNoSpawn1.player2Spawn = some ⟨11, 22⟩) ∧
    player1SpawnPoint exLevelNoSpawn1 800 600 = ⟨100, 300⟩ ∧
    player2SpawnPoint exLevelNoSpawn1 800 600 = ⟨11, 22⟩ := by
  refine ⟨⟨rfl, rfl⟩, ?_, ?_⟩
  · have h := (C10_default_spawns exLevelNoSpawn1 800 600).1 rfl
    rw [h]
    norm_num
  · exact (C10_default_spawns exLevelNoSpawn1 800 600).2.2.2 ⟨11, 22⟩ rfl

/-! ## Keypoint-confidence floor (claim C8)

The per-adjacency-pair filter inside `posesToPlatformLines`: a pair is
skipped if either keypoint is a face keypoint, either confidence is
strictly below `minKpScore = 0.35`, the joints are closer than
`minLen = 18` px, or either endpoint lies outside the stage rectangle.
The source's `Math.hypot(bx-ax, by-ay) < minLen` is expressed over ℚ by the
equivalent squared comparison (both sides are non-negative). -/

structure Kp where
  x : ℚ
  y : ℚ
  score : ℚ
  isFace : Bool
deriving DecidableEq, Repr

def minKpScore : ℚ := 35/100

def minSegLen : ℚ := 18

/-- The `continue` condition of the pair loop, in source order. -/
def pairSkipped (stageW stageH : ℚ) (a b : Kp) : Bool :=
  a.isFace || b.isFace ||
  decide (a.score < minKpScore) || decide (b.score < minKpScore) ||
  decide ((b.x - a.x) ^ 2 + (b.y - a.y) ^ 2 < minSegLen ^ 2) ||
  (decide (a.x < 0) || decide (a.x > stageW) ||
   decide (b.x < 0) || decide (b.x > stageW) ||
   decide (a.y < 0) || decide (a.y > stageH) ||
   decide (b.y < 0) || decide (b.y > stageH))

/-- C8: the confidence threshold is inclusive.  A pair with either endpoint
confidence strictly below `0.35` is skipped; a pair whose endpoint
confidences are exactly `0.35` is not excluded by the confidence test — if
every other test also passes, the pair is kept. -/
theorem C8_confidence_floor (stageW stageH : ℚ) (a b : Kp) :
    ((a.score < minKpScore ∨ b.score < minKpScore) →
      pairSkipped stageW stageH a b = true) ∧
    (a.score = minKpScore → b.score = minKpScore →
      a.isFace = false → b.isFace = false →
      minSegLen ^ 2 ≤ (b.x - a.x) ^ 2 + (b.y - a.y) ^ 2 →
      0 ≤ a.x → a.x ≤ stageW → 0 ≤ b.x → b.x ≤ stageW →
      0 ≤ a.y → a.y ≤ stageH → 0 ≤ b.y → b.y ≤ stageH →
      pairSkipped stageW stageH a b = false) := by
  constructor
  · intro h
    unfold pairSkipped
    rcases h with h | h
    · simp [h]
    · simp [h]
  · intro hsa hsb hfa hfb hlen hax1 hax2 hbx1 hbx2 hay1 hay2 hby1 hby2
    have h1 : ¬ (a.score < minKpScore) := by rw [hsa]; exact lt_irrefl _
    have h2 : ¬ (b.score < minKpScore) := by rw [hsb]; exact lt_irrefl _
    unfold pairSkipped
    simp [hfa, hfb, h1, h2, not_lt.mpr hlen, not_lt.mpr hax1,
      not_lt.mpr hax2, not_lt.mpr hbx1, not_lt.mpr hbx2, not_lt.mpr hay1,
      not_lt.mpr hay2, not_lt.mpr hby1, not_lt.mpr hby2]

theorem C8_confidence_floor_witness :
    ((⟨0, 0, 30/100, false⟩ : Kp).score < minKpScore ∧
      pairSkipped 100 100 ⟨0, 0, 30/100, false⟩ ⟨20, 0, 1, false⟩ = true) ∧
    ((⟨0, 0, 35/100, false⟩ : Kp).score = minKpScore ∧
      pairSkipped 100 100 ⟨0, 0, 35/100, false⟩ ⟨20, 0, 35/100, false⟩
        = false) := by
  constructor
  · refine ⟨by norm_num [minKpScore], ?_⟩
    exact (C8_confidence_floor 100 100 ⟨0, 0, 30/100, false⟩
      ⟨20, 0, 1, false⟩).1 (Or.inl (by norm_num [minKpScore]))
  · refine ⟨rfl, ?_⟩
    exact (C8_confidence_floor 100 100 ⟨0, 0, 35/100, false⟩
      ⟨20, 0, 35/100, false⟩).2 rfl rfl rfl rfl
      (by norm_num [minSegLen]) (by norm_num) (by norm_num) (by norm_num)
      (by norm_num) (by norm_num) (by norm_num) (by norm_num) (by norm_num)

end ShapeUp
